import Mathlib

/-!
# Verification of the agricultural data-validation pipeline

A shallow embedding, in Lean 4, of the two data-processing classes of the
repository (`field_data_processor.py` and `weather_data_processor.py`),
together with proofs and refutations of the specified properties.

Modelling conventions:
* a pandas `DataFrame` is modelled either column-wise, as a list of
  `(column-name, column-data)` pairs (for the column-swap operation, which is
  purely about labels), or row-wise, as a list of row structures (for the
  value-level operations);
* Python `float` values are modelled as `ℚ` (the claims only involve exact
  decimal arithmetic);
* Python's `str.strip` is modelled on the ASCII whitespace characters it
  strips;
* a compiled regular expression is modelled abstractly by its `re.search`
  behaviour: a function from the message to an optional match, where a match
  carries the list of its capture groups (`match.groups()`), each group
  possibly `None`;
* a raised Python exception is modelled by an explicit error constructor.
-/

namespace AgriValidation

/-- The ASCII whitespace characters stripped by Python's `str.strip()`. -/
def isPySpace (c : Char) : Bool :=
  c = ' ' || c = '\t' || c = '\n' || c = '\x0d' || c = '\x0b' || c = '\x0c'

/-- Python `str.strip()`: remove leading whitespace, then trailing
whitespace. -/
def pyStrip (s : String) : String :=
  String.mk (List.rdropWhile isPySpace (s.data.dropWhile isPySpace))

/-- Python `dict.get(k, k)`: look `k` up in the mapping, pass it through
unchanged when absent.  A `dict` is modelled as an association list. -/
def dictGet (m : List (String × String)) (k : String) : String :=
  match m.find? (fun p => p.1 = k) with
  | some p => p.2
  | none => k

/-! ## FieldDataProcessor -/

namespace FieldDataProcessor

/-- One row of the field table, restricted to the columns the corrections and
the weather-station join touch: `Field_ID`, `Elevation` and `Crop_type`. -/
structure FieldRow where
  field_id : Nat
  elevation : ℚ
  crop : String
  deriving DecidableEq

/-- One row of the weather-mapping CSV: the parser's unnamed index column
(`Unnamed: 0`), `Field_ID` and `Weather_station`. -/
structure WMapRow where
  unnamed : Nat
  field_id : Nat
  weather_station : String
  deriving DecidableEq

/-- One row of the field table after `weather_station_mapping`: the field
columns plus the joined (possibly null) `Weather_station`; the `Unnamed: 0`
column of the mapping CSV has been dropped. -/
structure JoinedRow where
  field_id : Nat
  elevation : ℚ
  crop : String
  weather_station : Option String
  deriving DecidableEq

/-- The per-value `Crop_type` correction of `apply_corrections`:
`values_to_rename.get(crop, crop)` followed by `.str.strip()`. -/
def cropCorrect (values_to_rename : List (String × String)) (crop : String) :
    String :=
  pyStrip (dictGet values_to_rename crop)

/-- `apply_corrections`: take the absolute value of `Elevation`, then replace
each `Crop_type` value through `values_to_rename` and strip it. -/
def apply_corrections (values_to_rename : List (String × String))
    (df : List FieldRow) : List FieldRow :=
  df.map (fun r =>
    { r with
      elevation := |r.elevation|
      crop := cropCorrect values_to_rename r.crop })

/-- `df.merge(weather_map_df, on='Field_ID', how='left')` followed by dropping
the `Unnamed: 0` column: every left row is paired with each mapping row of
equal `Field_ID`, and with a null station when no mapping row matches. -/
def weather_station_mapping (df : List FieldRow) (weather_map_df : List WMapRow) :
    List JoinedRow :=
  df.flatMap (fun r =>
    let ms := weather_map_df.filter (fun w => w.field_id = r.field_id)
    if ms.isEmpty then
      [⟨r.field_id, r.elevation, r.crop, none⟩]
    else
      ms.map (fun w => ⟨r.field_id, r.elevation, r.crop, some w.weather_station⟩))

/-! ### Column renaming (the swap defect repair)

`rename_columns` is purely a column-label operation, so here the table is
modelled column-wise: a list of `(label, column-data)` pairs. -/

/-- A column-labelled table: labels paired with per-row column data. -/
def CTable (V : Type) : Type := List (String × List V)

/-- `df.rename(columns=m)`: relabel every column whose label is a key of `m`. -/
def renameCols {V : Type} (m : List (String × String)) (t : CTable V) :
    CTable V :=
  t.map (fun p => (dictGet m p.1, p.2))

/-- The `while temp_name in df.columns: temp_name += "_"` probe, with explicit
fuel (the loop runs at most `columns.length` times, see `probeTemp_not_mem`). -/
def probeTemp : Nat → String → List String → String
  | 0, s, _ => s
  | n + 1, s, cols => if s ∈ cols then probeTemp n (s ++ "_") cols else s

/-- The collision-free temporary column name used by `rename_columns`. -/
def freshTemp (cols : List String) : String :=
  probeTemp (cols.length + 1) "__temp_name_for_swap__" cols

/-- `rename_columns`: swap the data under the two column names designated by
the single pair of `columns_to_rename` (`column1` its key, `column2` its
value), via the fresh temporary name: first
`rename(columns={column1: temp_name, column2: column1})`, then
`rename(columns={temp_name: column2})`. -/
def rename_columns {V : Type} (columns_to_rename : String × String)
    (t : CTable V) : CTable V :=
  renameCols [(freshTemp (t.map Prod.fst), columns_to_rename.2)]
    (renameCols
      [(columns_to_rename.1, freshTemp (t.map Prod.fst)),
        (columns_to_rename.2, columns_to_rename.1)] t)

/-- The data held under column name `n`: the data of the first column whose
label is `n` (pandas label lookup), or `none` when no column has that label. -/
def colData {V : Type} (t : CTable V) (n : String) : Option (List V) :=
  (t.find? (fun p => p.1 = n)).map Prod.snd

end FieldDataProcessor

/-! ## WeatherDataProcessor -/

namespace WeatherDataProcessor

/-- A regex match, reduced to what `extract_measurement` inspects:
`match.groups()`, the list of capture groups, each possibly `None`. -/
structure RMatch where
  groups : List (Option String)

/-- A compiled pattern, modelled by its `re.search` behaviour on a message:
`none` when the pattern does not match, otherwise the match object. -/
def Pattern : Type := String → Option RMatch

/-- `next((x for x in match.groups() if x is not None))` — except that the
Python call raises `StopIteration` when every group is null, which here is the
`none` case. -/
def firstNonNullGroup (groups : List (Option String)) : Option String :=
  (groups.filterMap id).head?

/-- The outcome of `extract_measurement`: either a returned pair — `(k, v)`
for a match, `(None, None)` for no match — or a raised `StopIteration`
(carrying the key of the matching pattern whose groups were all null). -/
inductive ExtractOutcome (V : Type) where
  | pair : Option (String × V) → ExtractOutcome V
  | stopIteration : String → ExtractOutcome V
  deriving DecidableEq

/-- Whether the outcome is a returned pair (as opposed to a raised
exception). -/
def ExtractOutcome.isPair {V : Type} : ExtractOutcome V → Bool
  | .pair _ => true
  | .stopIteration _ => false

/-- `extract_measurement`: try the configured patterns in iteration order; on
the first match return its key and the parse (`float`, modelled by the
abstract `parse`) of the first non-null capture group; with no match return
`(None, None)`.  When the winning match has no non-null group, the `next`
call raises. -/
def extract_measurement {V : Type} (parse : String → V) :
    List (String × Pattern) → String → ExtractOutcome V
  | [], _ => .pair none
  | (key, pattern) :: rest, message =>
    match pattern message with
    | some m =>
      match firstNonNullGroup m.groups with
      | some g => .pair (some (key, parse g))
      | none => .stopIteration key
    | none => extract_measurement parse rest message

/-- The first configured pattern that matches the message, with its match:
the spec's "earliest pattern in configuration iteration order". -/
def findFirstMatch : List (String × Pattern) → String → Option (String × RMatch)
  | [], _ => none
  | (key, pattern) :: rest, message =>
    match pattern message with
    | some m => some (key, m)
    | none => findFirstMatch rest message

/-- One row of the weather table: `Weather_station_ID`, `Message`, and the
`Measurement` / `Value` columns produced by `process_messages` (both null
before extraction or on a no-match row). -/
structure WRow where
  station : String
  message : String
  meas : Option String
  val : Option ℚ
  deriving DecidableEq

/-- The group keys of `groupby(by=['Weather_station_ID', 'Measurement'])`:
pairs `(station, measurement)` in order of first appearance, without
duplicates; pandas drops rows whose `Measurement` key is null. -/
def groupKeys (rows : List WRow) : List (String × String) :=
  (rows.filterMap (fun r => r.meas.map (fun m => (r.station, m)))).dedup

/-- The non-null `Value`s of the `(s, m)` group. -/
def groupVals (rows : List WRow) (s m : String) : List ℚ :=
  (rows.filter (fun r => r.station = s && r.meas = some m)).filterMap
    (fun r => r.val)

/-- The mean of the group's `Value`s, skipping nulls as pandas `mean` does;
`none` models the `NaN` mean of an all-null group. -/
def groupMean (rows : List WRow) (s m : String) : Option ℚ :=
  let vs := groupVals rows s m
  if vs.isEmpty then none else some (vs.sum / vs.length)

/-- `calculate_means` on a loaded table:
`groupby(['Weather_station_ID', 'Measurement'])['Value'].mean()`, one entry
per group key. -/
def meansTable (rows : List WRow) : List ((String × String) × Option ℚ) :=
  (groupKeys rows).map (fun km => (km, groupMean rows km.1 km.2))

/-- The cell of the unstacked wide table at row `s`, column `m`: the group's
mean when the group exists, `NaN` (here `none`) otherwise. -/
def wideCell (means : List ((String × String) × Option ℚ)) (s m : String) :
    Option ℚ :=
  match means.find? (fun e => e.1 = (s, m)) with
  | some e => e.2
  | none => none

/-- The processor state: the configured patterns, the `float` parse, and
`self.weather_df` (`None` until `weather_station_mapping` loads it). -/
structure WProcessor where
  patterns : List (String × Pattern)
  parse : String → ℚ
  weather_df : Option (List WRow)

/-- Extraction applied to one row by `process_messages`; `none` models the
`StopIteration` escaping the `apply`. -/
def rowExtract (patterns : List (String × Pattern)) (parse : String → ℚ)
    (r : WRow) : Option WRow :=
  match extract_measurement parse patterns r.message with
  | .pair none => some { r with meas := none, val := none }
  | .pair (some (k, v)) => some { r with meas := some k, val := some v }
  | .stopIteration _ => none

/-- `weather_station_mapping` (of the weather processor): load the fetched
CSV into `self.weather_df`. -/
def weather_station_mapping (loaded : List WRow) (p : WProcessor) :
    WProcessor :=
  { p with weather_df := some loaded }

/-- `process_messages`: when `weather_df` is loaded, extract a measurement
from every `Message` and store the `Measurement` / `Value` columns, returning
the updated table; when it is `None`, log a warning, change nothing and
return `None`.  A raised extraction exception (`Except.error`) leaves the
stored table unchanged, since the assignment follows the whole `apply`. -/
def process_messages (p : WProcessor) :
    WProcessor × Except Unit (Option (List WRow)) :=
  match p.weather_df with
  | some df =>
    match df.mapM (rowExtract p.patterns p.parse) with
    | some df2 => ({ p with weather_df := some df2 }, .ok (some df2))
    | none => (p, .error ())
  | none => (p, .ok none)

/-- `calculate_means`: when `weather_df` is loaded, the grouped means; when
it is `None`, log a warning and return `None`.  The state is returned
unchanged — the method contains no assignment to `self.weather_df`. -/
def calculate_means (p : WProcessor) :
    WProcessor × Option (List ((String × String) × Option ℚ)) :=
  match p.weather_df with
  | some rows => (p, some (meansTable rows))
  | none => (p, none)

/-- `process`: `weather_station_mapping()` then `process_messages()` — and
nothing else; `calculate_means` is not part of the pipeline. -/
def process (loaded : List WRow) (p : WProcessor) : WProcessor :=
  (process_messages (weather_station_mapping loaded p)).1

end WeatherDataProcessor

/-! ## Supporting lemmas -/

/-- Stripping leading whitespace and then trailing whitespace leaves a list
whose head is not whitespace, so a further leading strip is the identity. -/
lemma dropWhile_of_both_stripped (l : List Char) :
    List.dropWhile isPySpace
        (List.rdropWhile isPySpace (List.dropWhile isPySpace l)) =
      List.rdropWhile isPySpace (List.dropWhile isPySpace l) := by
  rcases h : List.rdropWhile isPySpace (List.dropWhile isPySpace l) with _ | ⟨a, w⟩
  · simp
  · obtain ⟨t, ht⟩ := List.rdropWhile_prefix isPySpace (List.dropWhile isPySpace l)
    rw [h, List.cons_append] at ht
    have hsome : (List.dropWhile isPySpace l).head? = some a := by
      rw [← ht]; rfl
    have hhead := List.head?_dropWhile_not isPySpace l
    rw [hsome] at hhead
    rw [List.dropWhile_cons, if_neg (by simp [hhead])]

/-- Python's two-sided strip is idempotent. -/
lemma pyStrip_idem (s : String) : pyStrip (pyStrip s) = pyStrip s := by
  show String.mk
      (List.rdropWhile isPySpace (List.dropWhile isPySpace
        (List.rdropWhile isPySpace (List.dropWhile isPySpace s.data)))) =
    String.mk (List.rdropWhile isPySpace (List.dropWhile isPySpace s.data))
  rw [dropWhile_of_both_stripped, List.rdropWhile_idempotent]

/-! ## Claims about `apply_corrections` (crop-type normalization) -/

namespace FieldDataProcessor

/-- C2, counterexample: with crop value `" cassaval "` (padded) and mapping
`{cassaval: cassava}`, `apply_corrections` does not produce `"cassava"` — the
lookup precedes the strip, so the padded value misses the mapping. -/
theorem apply_corrections_padded_typo_cex :
    (apply_corrections [("cassaval", "cassava")]
        [⟨1, 0, " cassaval "⟩]).map FieldRow.crop ≠ ["cassava"] := by
  decide

/-- C2, amended: with crop value `" cassaval "` and mapping
`{cassaval: cassava}`, the crop value after `apply_corrections` is exactly
`"cassaval"`: the whitespace is trimmed but the typo is not corrected,
because the mapping lookup sees the still-padded value and passes it
through. -/
theorem apply_corrections_padded_typo :
    (apply_corrections [("cassaval", "cassava")]
        [⟨1, 0, " cassaval "⟩]).map FieldRow.crop = ["cassaval"] := by
  decide

/-- C6, counterexample: crop-type normalization is not idempotent for every
input string — with the repository's own `values_to_rename` mapping and the
padded typo `" cassaval "`, one application yields `"cassaval"` (now a key of
the mapping) and a second application yields `"cassava"`. -/
theorem cropCorrect_not_idempotent_cex :
    cropCorrect [("cassaval", "cassava"), ("wheatn", "wheat"), ("teaa", "tea")]
        (cropCorrect
          [("cassaval", "cassava"), ("wheatn", "wheat"), ("teaa", "tea")]
          " cassaval ") ≠
      cropCorrect
        [("cassaval", "cassava"), ("wheatn", "wheat"), ("teaa", "tea")]
        " cassaval " := by
  decide

/-- C6, amended: crop-type normalization (mapping lookup with pass-through,
then strip) is idempotent on inputs with no leading or trailing whitespace,
provided no stripped corrected value of the mapping is itself a key of the
mapping. -/
theorem cropCorrect_idempotent_of_stripped (vmap : List (String × String))
    (s : String)
    (hvals : ∀ kv ∈ vmap, pyStrip kv.2 ∉ vmap.map Prod.fst)
    (hs : pyStrip s = s) :
    cropCorrect vmap (cropCorrect vmap s) = cropCorrect vmap s := by
  rcases h : vmap.find? (fun p => p.1 = s) with _ | kv
  · have hcc : cropCorrect vmap s = s := by
      unfold cropCorrect dictGet
      rw [h]
      exact hs
    rw [hcc]
    exact hcc
  · have hmem : kv ∈ vmap := List.mem_of_find?_eq_some h
    have hcc : cropCorrect vmap s = pyStrip kv.2 := by
      unfold cropCorrect dictGet
      rw [h]
    have hfind2 : vmap.find? (fun p => p.1 = pyStrip kv.2) = none := by
      rw [List.find?_eq_none]
      intro x hx hx1
      simp only [decide_eq_true_eq] at hx1
      exact hvals kv hmem (hx1 ▸ List.mem_map_of_mem Prod.fst hx)
    rw [hcc]
    unfold cropCorrect dictGet
    rw [hfind2]
    exact pyStrip_idem kv.2

/-- C6, witness: the amended idempotence at the repository's configured
mapping and the unpadded input `"cassaval"`. -/
theorem cropCorrect_idempotent_of_stripped_witness :
    ((∀ kv ∈ ([("cassaval", "cassava"), ("wheatn", "wheat"), ("teaa", "tea")] :
          List (String × String)),
        pyStrip kv.2 ∉
          ([("cassaval", "cassava"), ("wheatn", "wheat"),
              ("teaa", "tea")] : List (String × String)).map Prod.fst) ∧
      pyStrip "cassaval" = "cassaval") ∧
    cropCorrect [("cassaval", "cassava"), ("wheatn", "wheat"), ("teaa", "tea")]
        (cropCorrect
          [("cassaval", "cassava"), ("wheatn", "wheat"), ("teaa", "tea")]
          "cassaval") =
      cropCorrect
        [("cassaval", "cassava"), ("wheatn", "wheat"), ("teaa", "tea")]
        "cassaval" :=
  ⟨⟨by decide, by decide⟩,
    cropCorrect_idempotent_of_stripped _ "cassaval" (by decide) (by decide)⟩

/-- Every row of a left join carries the elevation of some corrected field
row. -/
lemma elevation_of_mem_weather_station_mapping (df : List FieldRow)
    (wmap : List WMapRow) (j : JoinedRow)
    (hj : j ∈ weather_station_mapping df wmap) :
    ∃ r ∈ df, j.elevation = r.elevation := by
  unfold weather_station_mapping at hj
  rw [List.mem_flatMap] at hj
  obtain ⟨r, hr, hjr⟩ := hj
  refine ⟨r, hr, ?_⟩
  by_cases hms : (wmap.filter (fun w => w.field_id = r.field_id)).isEmpty
  · rw [if_pos hms, List.mem_singleton] at hjr
    rw [hjr]
  · rw [if_neg hms, List.mem_map] at hjr
    obtain ⟨w, _, hw⟩ := hjr
    rw [← hw]

/-- C8: after `apply_corrections` every row satisfies `Elevation ≥ 0`, for
any input elevations, and the invariant is preserved by the subsequent
`weather_station_mapping` left join. -/
theorem apply_corrections_elevation_nonneg (vmap : List (String × String))
    (df : List FieldRow) (wmap : List WMapRow) :
    (∀ r ∈ apply_corrections vmap df, 0 ≤ r.elevation) ∧
    (∀ j ∈ weather_station_mapping (apply_corrections vmap df) wmap,
      0 ≤ j.elevation) := by
  have h1 : ∀ r ∈ apply_corrections vmap df, 0 ≤ r.elevation := by
    intro r hr
    rw [apply_corrections, List.mem_map] at hr
    obtain ⟨r0, _, hr0⟩ := hr
    rw [← hr0]
    exact abs_nonneg r0.elevation
  refine ⟨h1, fun j hj => ?_⟩
  obtain ⟨r, hr, hje⟩ :=
    elevation_of_mem_weather_station_mapping (apply_corrections vmap df) wmap j hj
  rw [hje]
  exact h1 r hr

/-- C8, witness: a concrete negative input elevation made non-negative and
kept non-negative through the join. -/
theorem apply_corrections_elevation_nonneg_witness :
    (⟨1, 5, "maize"⟩ : FieldRow) ∈ apply_corrections [] [⟨1, -5, "maize"⟩] ∧
    0 ≤ (⟨1, (5 : ℚ), "maize"⟩ : FieldRow).elevation :=
  ⟨by decide,
    (apply_corrections_elevation_nonneg [] [⟨1, -5, "maize"⟩] []).1
      ⟨1, 5, "maize"⟩ (by decide)⟩

/-- Under unique mapping keys, filtering the mapping table by a key yields
exactly the rows of the first (only) hit. -/
lemma filter_key_eq_find?_toList (wmap : List WMapRow) (k : Nat)
    (h : (wmap.map (fun w => w.field_id)).Nodup) :
    wmap.filter (fun w => w.field_id = k) =
      (wmap.find? (fun w => w.field_id = k)).toList := by
  induction wmap with
  | nil => rfl
  | cons w ws ih =>
    rw [List.map_cons, List.nodup_cons] at h
    by_cases hw : w.field_id = k
    · rw [List.filter_cons_of_pos (by simp [hw]),
        List.find?_cons_of_pos _ (by simp [hw])]
      have hnil : ws.filter (fun x => x.field_id = k) = [] := by
        rw [List.filter_eq_nil_iff]
        intro x hx hxk
        simp only [decide_eq_true_eq] at hxk
        exact h.1 (by rw [hw, ← hxk]; exact List.mem_map_of_mem _ hx)
      rw [hnil]
      rfl
    · rw [List.filter_cons_of_neg (by simp [hw]),
        List.find?_cons_of_neg _ (by simp [hw])]
      exact ih h.2

/-- C5, counterexample: the left join does not preserve the row count for
every mapping table — a mapping table with a duplicated `Field_ID` makes the
matching field row appear twice. -/
theorem weather_station_mapping_dup_keys_cex :
    (weather_station_mapping [⟨1, 0, "maize"⟩]
        [⟨0, 1, "SA"⟩, ⟨1, 1, "SB"⟩]).length ≠
      ([⟨1, 0, "maize"⟩] : List FieldRow).length := by
  decide

/-- C5, amended: when the mapping table's `Field_ID` keys are pairwise
distinct, the left join keeps every field row exactly once and in order —
pairing it with the station of its unique matching mapping row, or with a
null station when no mapping row matches — so the row count of the field
table is preserved. -/
theorem weather_station_mapping_left_join (df : List FieldRow)
    (wmap : List WMapRow)
    (h : (wmap.map (fun w => w.field_id)).Nodup) :
    weather_station_mapping df wmap =
      df.map (fun r => ⟨r.field_id, r.elevation, r.crop,
        (wmap.find? (fun w => w.field_id = r.field_id)).map
          (fun w => w.weather_station)⟩) ∧
    (weather_station_mapping df wmap).length = df.length := by
  have hmain : weather_station_mapping df wmap =
      df.map (fun r => ⟨r.field_id, r.elevation, r.crop,
        (wmap.find? (fun w => w.field_id = r.field_id)).map
          (fun w => w.weather_station)⟩) := by
    induction df with
    | nil => rfl
    | cons r rs ih =>
      unfold weather_station_mapping at ih ⊢
      rw [List.flatMap_cons, List.map_cons, ih]
      rw [filter_key_eq_find?_toList wmap r.field_id h]
      rcases hf : wmap.find? (fun w => w.field_id = r.field_id) with _ | w
      · rw [hf]; rfl
      · rw [hf]; rfl
  exact ⟨hmain, by rw [hmain, List.length_map]⟩

/-- C5, witness: a two-row field table joined against a one-entry mapping
table — the matched row gets its station, the unmatched row is kept with a
null station, and the row count is preserved. -/
theorem weather_station_mapping_left_join_witness :
    (([⟨0, 1, "SA"⟩] : List WMapRow).map (fun w => w.field_id)).Nodup ∧
    weather_station_mapping [⟨1, 0, "maize"⟩, ⟨2, 0, "tea"⟩] [⟨0, 1, "SA"⟩] =
      [⟨1, 0, "maize", some "SA"⟩, ⟨2, 0, "tea", none⟩] ∧
    (weather_station_mapping [⟨1, 0, "maize"⟩, ⟨2, 0, "tea"⟩]
        [⟨0, 1, "SA"⟩]).length =
      ([⟨1, 0, "maize"⟩, ⟨2, 0, "tea"⟩] : List FieldRow).length :=
  ⟨by decide,
    (weather_station_mapping_left_join [⟨1, 0, "maize"⟩, ⟨2, 0, "tea"⟩]
        [⟨0, 1, "SA"⟩] (by decide)).1.trans (by decide),
    (weather_station_mapping_left_join [⟨1, 0, "maize"⟩, ⟨2, 0, "tea"⟩]
        [⟨0, 1, "SA"⟩] (by decide)).2⟩

/-- Counting with a strictly weaker predicate, in the presence of a witness
of the gap, gives a strictly smaller count. -/
lemma countP_lt_of_gap {α : Type} (p q : α → Bool) (l : List α)
    (himp : ∀ a, q a = true → p a = true) (x : α) (hx : x ∈ l)
    (hp : p x = true) (hq : q x = false) :
    l.countP q < l.countP p := by
  induction l with
  | nil => cases hx
  | cons a t ih =>
    rw [List.countP_cons, List.countP_cons]
    rcases List.mem_cons.mp hx with rfl | hxt
    · have h1 : List.countP q t ≤ List.countP p t :=
        List.countP_mono_left (fun a _ hqa => himp a hqa)
      rw [if_pos hp, if_neg (by simp [hq])]
      omega
    · have h2 := ih hxt
      have h3 : (if q a = true then 1 else 0) ≤
          (if p a = true then 1 else 0) := by
        by_cases hqa : q a = true
        · rw [if_pos hqa, if_pos (himp a hqa)]
        · rw [if_neg hqa]
          exact Nat.zero_le _
      exact Nat.add_lt_add_of_lt_of_le h2 h3

/-- With enough fuel, the `while`-loop probe leaves the column set: each
collision lengthens the candidate, and only `cols.countP (length ≥ …)` many
collisions can occur. -/
lemma probeTemp_not_mem (cols : List String) :
    ∀ (fuel : Nat) (s : String),
      cols.countP (fun c => s.length ≤ c.length) < fuel →
      probeTemp fuel s cols ∉ cols := by
  intro fuel
  induction fuel with
  | zero => exact fun s h => absurd h (Nat.not_lt_zero _)
  | succ n ih =>
    intro s h
    show (if s ∈ cols then probeTemp n (s ++ "_") cols else s) ∉ cols
    by_cases hs : s ∈ cols
    · rw [if_pos hs]
      apply ih
      have hlt : cols.countP (fun c => (s ++ "_").length ≤ c.length) <
          cols.countP (fun c => s.length ≤ c.length) := by
        refine countP_lt_of_gap _ _ cols (fun a ha => ?_) s hs (by simp) ?_
        · simp only [decide_eq_true_eq, String.length_append] at ha ⊢
          omega
        · simp only [decide_eq_false_iff_not, String.length_append]
          have h1 : "_".length = 1 := rfl
          omega
      omega
    · rw [if_neg hs]
      exact hs

/-- The temporary name probed by `rename_columns` collides with no existing
column label. -/
lemma freshTemp_not_mem (cols : List String) : freshTemp cols ∉ cols :=
  probeTemp_not_mem cols (cols.length + 1) "__temp_name_for_swap__"
    (Nat.lt_succ_of_le (List.countP_le_length _))

/-- Looking up in a one-longer rename dictionary. -/
lemma dictGet_cons (k v : String) (m : List (String × String)) (x : String) :
    dictGet ((k, v) :: m) x = if k = x then v else dictGet m x := by
  unfold dictGet
  by_cases h : k = x
  · rw [List.find?_cons_of_pos _ (by simp [h]), if_pos h]
  · rw [List.find?_cons_of_neg _ (by simp [h]), if_neg h]

/-- The two-step rename of `rename_columns` acts on each column label as the
transposition of `A` and `B`, whenever `A` and `B` are labels of the table
(so that neither equals the fresh temporary name). -/
lemma rename_columns_eq_map {V : Type} (A B : String) (t : CTable V)
    (hA : A ∈ t.map Prod.fst) (hB : B ∈ t.map Prod.fst) (hAB : A ≠ B) :
    rename_columns (A, B) t =
      t.map (fun p =>
        (if p.1 = A then B else if p.1 = B then A else p.1, p.2)) := by
  unfold rename_columns renameCols
  rw [List.map_map]
  apply List.map_congr_left
  intro p hp
  have hptemp : p.1 ≠ freshTemp (t.map Prod.fst) := fun he =>
    freshTemp_not_mem _ (he ▸ List.mem_map_of_mem Prod.fst hp)
  have hAtemp : A ≠ freshTemp (t.map Prod.fst) := fun he =>
    freshTemp_not_mem _ (he ▸ hA)
  have hBtemp : B ≠ freshTemp (t.map Prod.fst) := fun he =>
    freshTemp_not_mem _ (he ▸ hB)
  simp only [Function.comp_apply]
  by_cases hpA : p.1 = A
  · have h1 : dictGet [(A, freshTemp (t.map Prod.fst)), (B, A)] p.1 =
        freshTemp (t.map Prod.fst) := by
      rw [dictGet_cons, if_pos hpA.symm]
    have h2 : dictGet [(freshTemp (t.map Prod.fst), B)]
        (freshTemp (t.map Prod.fst)) = B := by
      rw [dictGet_cons, if_pos rfl]
    rw [h1, h2, if_pos hpA]
  · by_cases hpB : p.1 = B
    · have h1 : dictGet [(A, freshTemp (t.map Prod.fst)), (B, A)] p.1 = A := by
        rw [dictGet_cons, if_neg (fun he => hpA he.symm), dictGet_cons,
          if_pos hpB.symm]
      have h2 : dictGet [(freshTemp (t.map Prod.fst), B)] A = A := by
        rw [dictGet_cons, if_neg (fun he => hAtemp he.symm)]
        rfl
      rw [h1, h2, if_neg hpA, if_pos hpB]
    · have h1 : dictGet [(A, freshTemp (t.map Prod.fst)), (B, A)] p.1 = p.1 := by
        rw [dictGet_cons, if_neg (fun he => hpA he.symm), dictGet_cons,
          if_neg (fun he => hpB he.symm)]
        rfl
      have h2 : dictGet [(freshTemp (t.map Prod.fst), B)] p.1 = p.1 := by
        rw [dictGet_cons, if_neg (fun he => hptemp he.symm)]
        rfl
      rw [h1, h2, if_neg hpA, if_neg hpB]

/-- C3: for a table whose columns include the two distinct names `A` and `B`
of the single configured rename pair, `rename_columns` exchanges the data
stored under the two names — afterwards name `A` holds what was under `B`,
name `B` holds what was under `A`, and every other name holds what it held
before. -/
theorem rename_columns_swaps_data {V : Type} (t : CTable V) (A B : String)
    (hA : A ∈ t.map Prod.fst) (hB : B ∈ t.map Prod.fst) (hAB : A ≠ B) :
    colData (rename_columns (A, B) t) A = colData t B ∧
    colData (rename_columns (A, B) t) B = colData t A ∧
    ∀ n, n ≠ A → n ≠ B → colData (rename_columns (A, B) t) n = colData t n := by
  have hswap : ∀ (ℓ n : String),
      ((if ℓ = A then B else if ℓ = B then A else ℓ) = n) ↔
        (ℓ = if n = A then B else if n = B then A else n) := by
    intro ℓ n
    by_cases h1 : ℓ = A <;> by_cases h2 : ℓ = B <;>
      by_cases h3 : n = A <;> by_cases h4 : n = B <;>
      simp_all <;> tauto
  have key : ∀ n, colData (rename_columns (A, B) t) n =
      colData t (if n = A then B else if n = B then A else n) := by
    intro n
    rw [rename_columns_eq_map A B t hA hB hAB]
    unfold colData
    rw [List.find?_map]
    have hpred : ((fun p : String × List V => decide (p.1 = n)) ∘
          (fun p : String × List V =>
            (if p.1 = A then B else if p.1 = B then A else p.1, p.2))) =
        (fun p : String × List V =>
          decide (p.1 = if n = A then B else if n = B then A else n)) := by
      funext p
      simp only [Function.comp_apply]
      rw [decide_eq_decide]
      exact hswap p.1 n
    rw [hpred, Option.map_map]
    rfl
  refine ⟨?_, ?_, ?_⟩
  · rw [key A, if_pos rfl]
  · rw [key B, if_neg (fun h => hAB h.symm), if_pos rfl]
  · intro n hnA hnB
    rw [key n, if_neg hnA, if_neg hnB]

/-- C3, witness: the configured swap pair of the repository
(`Annual_yield` / `Crop_type`) on a three-column table. -/
theorem rename_columns_swaps_data_witness :
    ("Annual_yield" ∈ ([("Annual_yield", [1, 2]), ("Crop_type", [3, 4]),
        ("Field_ID", [5, 6])] : CTable Nat).map Prod.fst ∧
      "Crop_type" ∈ ([("Annual_yield", [1, 2]), ("Crop_type", [3, 4]),
        ("Field_ID", [5, 6])] : CTable Nat).map Prod.fst ∧
      "Annual_yield" ≠ "Crop_type") ∧
    (colData (rename_columns ("Annual_yield", "Crop_type")
          ([("Annual_yield", [1, 2]), ("Crop_type", [3, 4]),
            ("Field_ID", [5, 6])] : CTable Nat)) "Annual_yield" =
        colData ([("Annual_yield", [1, 2]), ("Crop_type", [3, 4]),
          ("Field_ID", [5, 6])] : CTable Nat) "Crop_type" ∧
      colData (rename_columns ("Annual_yield", "Crop_type")
          ([("Annual_yield", [1, 2]), ("Crop_type", [3, 4]),
            ("Field_ID", [5, 6])] : CTable Nat)) "Crop_type" =
        colData ([("Annual_yield", [1, 2]), ("Crop_type", [3, 4]),
          ("Field_ID", [5, 6])] : CTable Nat) "Annual_yield" ∧
      ∀ n, n ≠ "Annual_yield" → n ≠ "Crop_type" →
        colData (rename_columns ("Annual_yield", "Crop_type")
            ([("Annual_yield", [1, 2]), ("Crop_type", [3, 4]),
              ("Field_ID", [5, 6])] : CTable Nat)) n =
          colData ([("Annual_yield", [1, 2]), ("Crop_type", [3, 4]),
            ("Field_ID", [5, 6])] : CTable Nat) n) :=
  ⟨⟨by decide, by decide, by decide⟩,
    rename_columns_swaps_data
      ([("Annual_yield", [1, 2]), ("Crop_type", [3, 4]),
        ("Field_ID", [5, 6])] : CTable Nat)
      "Annual_yield" "Crop_type" (by decide) (by decide) (by decide)⟩

/-- C4: for a table containing both designated distinct column names,
applying `rename_columns` twice with the same single-pair mapping restores
the original table exactly. -/
theorem rename_columns_involutive {V : Type} (t : CTable V) (A B : String)
    (hA : A ∈ t.map Prod.fst) (hB : B ∈ t.map Prod.fst) (hAB : A ≠ B) :
    rename_columns (A, B) (rename_columns (A, B) t) = t := by
  have h1 := rename_columns_eq_map A B t hA hB hAB
  have hA2 : A ∈ (rename_columns (A, B) t).map Prod.fst := by
    rw [h1, List.map_map]
    obtain ⟨p, hp, hp1⟩ := List.mem_map.mp hB
    exact List.mem_map.mpr ⟨p, hp, by
      simp only [Function.comp_apply]
      rw [hp1, if_neg (fun h => hAB h.symm), if_pos rfl]⟩
  have hB2 : B ∈ (rename_columns (A, B) t).map Prod.fst := by
    rw [h1, List.map_map]
    obtain ⟨p, hp, hp1⟩ := List.mem_map.mp hA
    exact List.mem_map.mpr ⟨p, hp, by
      simp only [Function.comp_apply]
      rw [hp1, if_pos rfl]⟩
  rw [rename_columns_eq_map A B (rename_columns (A, B) t) hA2 hB2 hAB, h1,
    List.map_map]
  have hFF : ∀ p : String × List V,
      ((fun p : String × List V =>
          (if p.1 = A then B else if p.1 = B then A else p.1, p.2)) ∘
        (fun p : String × List V =>
          (if p.1 = A then B else if p.1 = B then A else p.1, p.2))) p =
        id p := by
    intro p
    simp only [Function.comp_apply, id]
    by_cases h1 : p.1 = A
    · rw [if_pos h1, if_neg (fun h => hAB h.symm), if_pos rfl, ← h1]
    · by_cases h2 : p.1 = B
      · rw [if_neg h1, if_pos h2, if_pos rfl, ← h2]
      · rw [if_neg h1, if_neg h2, if_neg h1, if_neg h2]
  rw [List.map_congr_left (fun p _ => hFF p), List.map_id]

/-- C4, witness: the double swap at a concrete two-column table. -/
theorem rename_columns_involutive_witness :
    ("a" ∈ ([("a", [1]), ("b", [2])] : CTable Nat).map Prod.fst ∧
      "b" ∈ ([("a", [1]), ("b", [2])] : CTable Nat).map Prod.fst ∧
      "a" ≠ "b") ∧
    rename_columns ("a", "b")
        (rename_columns ("a", "b") ([("a", [1]), ("b", [2])] : CTable Nat)) =
      ([("a", [1]), ("b", [2])] : CTable Nat) :=
  ⟨⟨by decide, by decide, by decide⟩,
    rename_columns_involutive ([("a", [1]), ("b", [2])] : CTable Nat) "a" "b"
      (by decide) (by decide) (by decide)⟩

end FieldDataProcessor

/-! ## Claims about the weather processor -/

namespace WeatherDataProcessor

/-- C1, counterexample: the claim fails as stated — here a configured
pattern matches the message (`findFirstMatch` succeeds), yet
`extract_measurement` does not return a pair: the match's only capture group
is null, so the lookup of the first non-null group raises instead. -/
theorem extract_measurement_not_total_cex :
    (findFirstMatch
        ([("Error_flag", fun _ => some ⟨[none]⟩)] : List (String × Pattern))
        "crop failure").isSome = true ∧
    (extract_measurement (fun s => s)
        ([("Error_flag", fun _ => some ⟨[none]⟩)] : List (String × Pattern))
        "crop failure").isPair = false :=
  ⟨rfl, rfl⟩

/-- C1, amended: whenever no configured pattern matches,
`extract_measurement` returns `(None, None)`; and whenever some pattern
matches and the earliest matching pattern's match has a non-null capture
group, it returns that pattern's measurement kind paired with the parse of
the first non-null group. -/
theorem extract_measurement_first_match {V : Type} (parse : String → V)
    (pats : List (String × Pattern)) (msg : String) :
    (findFirstMatch pats msg = none →
      extract_measurement parse pats msg = .pair none) ∧
    (∀ (k : String) (m : RMatch) (g : String),
      findFirstMatch pats msg = some (k, m) →
      firstNonNullGroup m.groups = some g →
      extract_measurement parse pats msg = .pair (some (k, parse g))) := by
  induction pats with
  | nil => exact ⟨fun _ => rfl, fun k m g hk _ => by cases hk⟩
  | cons kp rest ih =>
    obtain ⟨key, pattern⟩ := kp
    rcases hpm : pattern msg with _ | m0
    · have he : extract_measurement parse ((key, pattern) :: rest) msg =
          extract_measurement parse rest msg := by
        simp only [extract_measurement, hpm]
      have hf : findFirstMatch ((key, pattern) :: rest) msg =
          findFirstMatch rest msg := by
        simp only [findFirstMatch, hpm]
      rw [he, hf]
      exact ih
    · have hf : findFirstMatch ((key, pattern) :: rest) msg =
          some (key, m0) := by
        simp only [findFirstMatch, hpm]
      constructor
      · intro hnone
        rw [hf] at hnone
        cases hnone
      · intro k m g hk hg
        rw [hf] at hk
        injection hk with hk2
        obtain ⟨rfl, rfl⟩ : key = k ∧ m0 = m :=
          ⟨congrArg Prod.fst hk2, congrArg Prod.snd hk2⟩
        have he : extract_measurement parse ((key, pattern) :: rest) msg =
            match firstNonNullGroup m0.groups with
            | some g => ExtractOutcome.pair (some (key, parse g))
            | none => ExtractOutcome.stopIteration key := by
          simp only [extract_measurement, hpm]
        rw [he, hg]

/-- C1, witness: a configured rainfall pattern whose match captures
`"23.5"` in its first group yields `("Rainfall", parse "23.5")`. -/
theorem extract_measurement_first_match_witness :
    findFirstMatch
        ([("Rainfall", fun _ => some ⟨[some "23.5", some ".5"]⟩)] :
          List (String × Pattern)) "Rainfall reading: 23.5mm" =
      some ("Rainfall", ⟨[some "23.5", some ".5"]⟩) ∧
    firstNonNullGroup [some "23.5", some ".5"] = some "23.5" ∧
    extract_measurement (fun s => s)
        ([("Rainfall", fun _ => some ⟨[some "23.5", some ".5"]⟩)] :
          List (String × Pattern)) "Rainfall reading: 23.5mm" =
      .pair (some ("Rainfall", "23.5")) :=
  ⟨rfl, rfl,
    (extract_measurement_first_match (fun s => s)
        ([("Rainfall", fun _ => some ⟨[some "23.5", some ".5"]⟩)] :
          List (String × Pattern)) "Rainfall reading: 23.5mm").2
      "Rainfall" ⟨[some "23.5", some ".5"]⟩ "23.5" rfl rfl⟩

/-- C10: `extract_measurement` is not total — a pattern that matches with no
non-null capture group (for example a pattern with no groups at all) makes
the first-non-null-group lookup raise, so the call returns no pair; and
under the precondition that every configured pattern only ever produces
matches with at least one non-null group, extraction always returns a
pair. -/
theorem extract_measurement_raises_on_null_groups :
    (extract_measurement (fun s => s)
        ([("No_groups", fun _ => some ⟨[]⟩)] : List (String × Pattern))
        "any message").isPair = false ∧
    (∀ (V : Type) (parse : String → V) (pats : List (String × Pattern))
      (msg : String),
      (∀ kp ∈ pats, ∀ (s : String) (m : RMatch), kp.2 s = some m →
        (firstNonNullGroup m.groups).isSome = true) →
      (extract_measurement parse pats msg).isPair = true) := by
  constructor
  · rfl
  · intro V parse pats msg
    induction pats with
    | nil => exact fun _ => rfl
    | cons kp rest ih =>
      intro hok
      obtain ⟨key, pattern⟩ := kp
      rcases hpm : pattern msg with _ | m0
      · have he : extract_measurement parse ((key, pattern) :: rest) msg =
            extract_measurement parse rest msg := by
          simp only [extract_measurement, hpm]
        rw [he]
        exact ih (fun kp2 h2 => hok kp2 (List.mem_cons_of_mem _ h2))
      · have hg :=
          hok (key, pattern) (List.mem_cons_self _ _) msg m0 hpm
        obtain ⟨g, hgg⟩ := Option.isSome_iff_exists.mp hg
        have he : extract_measurement parse ((key, pattern) :: rest) msg =
            ExtractOutcome.pair (some (key, parse g)) := by
          simp only [extract_measurement, hpm, hgg]
        rw [he]
        rfl

/-- C10, witness: with groups guaranteed non-null on every match, extraction
totality applies at a concrete temperature pattern. -/
theorem extract_measurement_raises_on_null_groups_witness :
    (∀ kp ∈ ([("Temperature", fun _ => some ⟨[some "31"]⟩)] :
        List (String × Pattern)), ∀ (s : String) (m : RMatch),
      kp.2 s = some m → (firstNonNullGroup m.groups).isSome = true) ∧
    (extract_measurement (fun s => s)
        ([("Temperature", fun _ => some ⟨[some "31"]⟩)] :
          List (String × Pattern)) "31C").isPair = true := by
  have hyp : ∀ kp ∈ ([("Temperature", fun _ => some ⟨[some "31"]⟩)] :
      List (String × Pattern)), ∀ (s : String) (m : RMatch),
      kp.2 s = some m → (firstNonNullGroup m.groups).isSome = true := by
    intro kp hkp s m hm
    rw [List.mem_singleton] at hkp
    subst hkp
    rw [show m = ⟨[some "31"]⟩ from (Option.some.inj hm).symm]
    rfl
  exact ⟨hyp, extract_measurement_raises_on_null_groups.2 String
    (fun s => s) _ "31C" hyp⟩

/-- C7: every cell of the unstacked wide table of `calculate_means` is the
arithmetic mean, ignoring nulls, of the `Value`s in the corresponding
`(Weather_station_ID, Measurement)` group; in particular for readings
`(A, temp, 10)`, `(A, temp, 20)`, `(A, rain, 5)` the cells are
`A/temp = 15` and `A/rain = 5`. -/
theorem calculate_means_group_means :
    (∀ (rows : List WRow) (s m : String),
      wideCell (meansTable rows) s m = groupMean rows s m) ∧
    wideCell (meansTable
        [⟨"A", "m1", some "temp", some 10⟩, ⟨"A", "m2", some "temp", some 20⟩,
          ⟨"A", "m3", some "rain", some 5⟩]) "A" "temp" = some 15 ∧
    wideCell (meansTable
        [⟨"A", "m1", some "temp", some 10⟩, ⟨"A", "m2", some "temp", some 20⟩,
          ⟨"A", "m3", some "rain", some 5⟩]) "A" "rain" = some 5 := by
  have hgen : ∀ (rows : List WRow) (s m : String),
      wideCell (meansTable rows) s m = groupMean rows s m := by
    intro rows s m
    unfold wideCell meansTable
    rw [List.find?_map]
    have hpred : ((fun e : (String × String) × Option ℚ =>
          decide (e.1 = (s, m))) ∘
        (fun km : String × String => (km, groupMean rows km.1 km.2))) =
        (fun km : String × String => decide (km = (s, m))) := by
      funext km
      rfl
    rw [hpred]
    by_cases hmem : (s, m) ∈ groupKeys rows
    · rcases hf : (groupKeys rows).find? (fun km => km = (s, m)) with _ | y
      · rw [List.find?_eq_none] at hf
        have hcontra := hf (s, m) hmem
        simp at hcontra
      · have hy : y = (s, m) := by simpa using List.find?_some hf
        subst hy
        rfl
    · have hf : (groupKeys rows).find? (fun km => km = (s, m)) = none :=
        List.find?_eq_none.mpr
          (fun x hx => by
            simp only [decide_eq_true_eq]
            exact fun heq => hmem (heq ▸ hx))
      have hfil : rows.filter
          (fun r => r.station = s && r.meas = some m) = [] := by
        rw [List.filter_eq_nil_iff]
        intro r hr hcond
        rw [Bool.and_eq_true, decide_eq_true_eq, decide_eq_true_eq] at hcond
        apply hmem
        unfold groupKeys
        rw [List.mem_dedup]
        exact List.mem_filterMap.mpr
          ⟨r, hr, by rw [hcond.2]; simp [hcond.1]⟩
      have hgm : groupMean rows s m = none := by
        unfold groupMean groupVals
        rw [hfil]
        rfl
      rw [hf, hgm]
      rfl
  refine ⟨hgen, ?_, ?_⟩
  · rw [hgen]
    norm_num [groupMean, groupVals, List.filter, List.filterMap]
  · rw [hgen]
    norm_num [groupMean, groupVals, List.filter, List.filterMap]

/-- C9: with `weather_df` still `None`, `process_messages` is a no-op that
returns a null table and `calculate_means` returns a null result; neither
raises and neither mutates the stored state (`calculate_means` never mutates
it in any state); and the `process()` pipeline consists of loading followed
by `process_messages` only — `calculate_means` is not invoked by it. -/
theorem weather_not_loaded_no_op :
    (∀ p : WProcessor, p.weather_df = none →
      process_messages p = (p, Except.ok none) ∧
      calculate_means p = (p, none)) ∧
    (∀ p : WProcessor, (calculate_means p).1 = p) ∧
    (∀ (loaded : List WRow) (p : WProcessor),
      process loaded p =
        (process_messages { p with weather_df := some loaded }).1) := by
  refine ⟨fun p hp => ⟨?_, ?_⟩, fun p => ?_, fun loaded p => rfl⟩
  · unfold process_messages
    rw [hp]
  · unfold calculate_means
    rw [hp]
  · unfold calculate_means
    rcases hw : p.weather_df with _ | rows
    · rfl
    · rfl

/-- C9, witness: the no-op behaviour at a concrete unloaded processor. -/
theorem weather_not_loaded_no_op_witness :
    (⟨[], fun _ => 0, none⟩ : WProcessor).weather_df = none ∧
    (process_messages (⟨[], fun _ => 0, none⟩ : WProcessor) =
        ((⟨[], fun _ => 0, none⟩ : WProcessor), Except.ok none) ∧
      calculate_means (⟨[], fun _ => 0, none⟩ : WProcessor) =
        ((⟨[], fun _ => 0, none⟩ : WProcessor), none)) :=
  ⟨rfl, weather_not_loaded_no_op.1 (⟨[], fun _ => 0, none⟩ : WProcessor) rfl⟩

end WeatherDataProcessor

end AgriValidation
